import Mathlib

/-!
Shallow embedding of the turtl client core: the error taxonomy
(src/error.rs), the crypto worker pool payload converters
(src/util/thredder.rs), the sync model and dispatcher
(src/sync/sync_model.rs) and the encrypted file store (src/models/file.rs).
Stateful code is embedded as explicit state passing over pure data; the
filesystem, the SQL store and the crypto primitives are abstracted by
explicit environments whose outcomes are parameters.
-/

/-- The unified error type exactly as declared in `src/error.rs` lines 6-47:
variants `Shutdown`, `Msg`, `BadValue`, `MissingField`, `MissingData`,
`CryptoError`, `ApiError`, `TryAgain`, `NotImplemented`.  The crypto error
payload is modelled as a message string and the HTTP status code as a
natural number; no other variants exist in the source enum. -/
inductive TError where
  | Shutdown
  | Msg (s : String)
  | BadValue (s : String)
  | MissingField (s : String)
  | MissingData (s : String)
  | CryptoError (inner : String)
  | ApiError (status : Nat)
  | TryAgain
  | NotImplemented
deriving DecidableEq

/-- The name of the variant (the "error kind") of a `TError` value. -/
def TError.kindName : TError → String
  | .Shutdown => "Shutdown"
  | .Msg _ => "Msg"
  | .BadValue _ => "BadValue"
  | .MissingField _ => "MissingField"
  | .MissingData _ => "MissingData"
  | .CryptoError _ => "CryptoError"
  | .ApiError _ => "ApiError"
  | .TryAgain => "TryAgain"
  | .NotImplemented => "NotImplemented"

/-- Modelled from the spec: the error taxonomy of spec section 4.A, which
includes a `NotFound(msg)` variant.  `src/error.rs` does not declare
`NotFound`, yet `src/models/file.rs` line 192 constructs `TError::NotFound`
and the test at file.rs line 381 matches on it, so the variant the rest of
the repository relies on is missing from the enum under `src/`.  This
spec-side type carries the full kind set so that `file_finder` can be
embedded as written. -/
inductive TErrorSpec where
  | Shutdown
  | Generic (s : String)
  | BadValue (s : String)
  | MissingField (s : String)
  | MissingData (s : String)
  | NotFound (s : String)
  | CryptoFailure (inner : String)
  | ApiFailure (status : Nat)
  | TryAgain
  | NotImplemented
deriving DecidableEq

/-- A JSON value (the `jedi::Value` / `serde_json::Value` the source threads
through every model operation).  Numbers are modelled as integers; no claim
depends on float payloads. -/
inductive Value where
  | null
  | bool (b : Bool)
  | num (n : Int)
  | str (s : String)
  | arr (items : List Value)
  | obj (fields : List (String × Value))

/-- First-match lookup in a JSON object's field list. -/
def assocGet (k : String) : List (String × Value) → Option Value
  | [] => none
  | (k', v) :: rest => if k' = k then some v else assocGet k rest

/-- Replace the first binding of `k` (or append one): the effect of setting
one field of an object. -/
def assocSet (k : String) (v : Value) : List (String × Value) → List (String × Value)
  | [] => [(k, v)]
  | (k', v') :: rest => if k' = k then (k, v) :: rest else (k', v') :: assocSet k v rest

/-- Drop every binding of `k`: the effect of `jedi::remove(&[k], ..)`. -/
def assocRemove (k : String) : List (String × Value) → List (String × Value)
  | [] => []
  | (k', v') :: rest => if k' = k then assocRemove k rest else (k', v') :: assocRemove k rest

/-- Field-wise overlay of object field lists where the second list wins,
keyed lookup-wise: each field of `a` is replaced by `b`'s value for that key
when `b` has one, and all of `b`'s fields follow. -/
def overlay : List (String × Value) → List (String × Value) → List (String × Value)
  | [], b => b
  | (k, v) :: rest, b => (k, Option.getD (assocGet k b) v) :: overlay rest b

/-- One-level field read, `jedi::get_opt(&[k], v)` for a single-segment
path: `none` unless `v` is an object holding `k`. -/
def Value.getField : Value → String → Option Value
  | .obj l, k => assocGet k l
  | _, _ => none

/-- `jedi::get_opt::<bool>(&[k], v)`: `some b` only when the field is
present and boolean-valued. -/
def Value.getOptBool (v : Value) (k : String) : Option Bool :=
  match v.getField k with
  | some (.bool b) => some b
  | _ => none

/-- Set one field of an object value (used for `model.settings = ...`). -/
def Value.setField : Value → String → Value → Value
  | .obj l, k, v => .obj (assocSet k v l)
  | w, _, _ => w

/-- `jedi::remove(&[k], v)` on an object value. -/
def Value.removeField : Value → String → Value
  | .obj l, k => .obj (assocRemove k l)
  | w, _ => w

/-- Modelled from the spec: `Protected::merge_fields` (spec section 4.D,
"field-wise overlay; later values win"); `src/models/protected.rs` is not
under `src/`.  On two objects the second object's fields win key-wise;
otherwise the second value replaces the first. -/
def mergeFields : Value → Value → Value
  | .obj a, .obj b => .obj (overlay a b)
  | _, other => other

/-- The closed set of transferable payload variants of the crypto pool,
`OpData` from `src/util/thredder.rs` lines 21-27.  `Vec<u8>` is modelled as
`List Nat` (byte lists). -/
inductive OpData where
  | Bin (b : List Nat)
  | Str (s : String)
  | JSON (v : Value)
  | Null (u : Unit)
  | VecStringPair (p : List Nat × String)

def OpData.isBin : OpData → Bool
  | .Bin _ => true
  | _ => false

def OpData.isStr : OpData → Bool
  | .Str _ => true
  | _ => false

def OpData.isJSON : OpData → Bool
  | .JSON _ => true
  | _ => false

def OpData.isNull : OpData → Bool
  | .Null _ => true
  | _ => false

def OpData.isVecStringPair : OpData → Bool
  | .VecStringPair _ => true
  | _ => false

/-- The `OpConverter` trait of `src/util/thredder.rs` lines 30-36: convert a
payload into `OpData` and decode an `OpData` back, failing with `BadValue`
on a variant mismatch (the `make_converter!` macro, lines 48-69). -/
class OpConverter (α : Type) where
  to_opdata : α → OpData
  to_value : OpData → Except TError α

instance : OpConverter (List Nat) where
  to_opdata x := OpData.Bin x
  to_value d :=
    match d with
    | OpData.Bin x => Except.ok x
    | _ => Except.error (TError.BadValue "OpConverter: problem converting Vec<u8>")

instance : OpConverter String where
  to_opdata x := OpData.Str x
  to_value d :=
    match d with
    | OpData.Str x => Except.ok x
    | _ => Except.error (TError.BadValue "OpConverter: problem converting String")

instance : OpConverter Value where
  to_opdata x := OpData.JSON x
  to_value d :=
    match d with
    | OpData.JSON x => Except.ok x
    | _ => Except.error (TError.BadValue "OpConverter: problem converting Value")

instance : OpConverter Unit where
  to_opdata x := OpData.Null x
  to_value d :=
    match d with
    | OpData.Null x => Except.ok x
    | _ => Except.error (TError.BadValue "OpConverter: problem converting ()")

instance : OpConverter (List Nat × String) where
  to_opdata x := OpData.VecStringPair x
  to_value d :=
    match d with
    | OpData.VecStringPair x => Except.ok x
    | _ => Except.error (TError.BadValue "OpConverter: problem converting (Vec<u8>, String)")

/-- `futures::Canceled`: the oneshot sender was dropped before completing. -/
inductive Canceled where
  | canceled

/-- The continuation installed on the receiving end of `Thredder::run`
(`src/util/thredder.rs` lines 107-115): on a delivered result, decode the
`OpData` (or pass the error through); on cancellation, produce
`TError::Msg(format!("thredder: {}: pool oneshot future canceled", name))`. -/
def thredderResolve (α : Type) [OpConverter α] (thread_name : String)
    (res : Except Canceled (Except TError OpData)) : Except TError α :=
  match res with
  | .ok (.ok x) => OpConverter.to_value x
  | .ok (.error e) => .error e
  | .error _ =>
      .error (.Msg ("thredder: " ++ thread_name ++ ": pool oneshot future canceled"))

/-- Sync actions.  `Add`, `Edit`, `Delete` and `MoveSpace` are matched by
name in `src/sync/sync_model.rs`; the `Other` constructor is modelled from
the spec: the action set of `SyncAction` (spec section 3, "`action` ∈
{Add, Edit, Delete, MoveSpace, …}") is open-ended and the enum itself lives
in `src/models/sync_record.rs`, which is not under `src/`.  `Other s`
stands for any further variant whose debug name is `s`. -/
inductive SyncAction where
  | Add
  | Edit
  | Delete
  | MoveSpace
  | Other (name : String)
deriving DecidableEq

/-- The `{:?}` debug rendering of a sync action. -/
def SyncAction.debugStr : SyncAction → String
  | .Add => "Add"
  | .Edit => "Edit"
  | .Delete => "Delete"
  | .MoveSpace => "MoveSpace"
  | .Other s => s

/-- Sync record types.  The constructors are the ones `src/sync/sync_model.rs`
and `src/models/file.rs` name; the enum itself lives in
`src/models/sync_record.rs`, which is not under `src/`. -/
inductive SyncType where
  | User
  | Space
  | Board
  | Note
  | File
  | FileIncoming
  | FileOutgoing
deriving DecidableEq

def SyncType.name : SyncType → String
  | .User => "user"
  | .Space => "space"
  | .Board => "board"
  | .Note => "note"
  | .File => "file"
  | .FileIncoming => "file:incoming"
  | .FileOutgoing => "file:outgoing"

/-- Modelled from the spec: `SyncType::from_string` (used at
`src/sync/sync_model.rs` line 87 as `ty = from(model_type)`, spec section
4.F); `src/models/sync_record.rs` is not under `src/`.  It maps a model
type name to its sync type and fails on an unknown name. -/
def SyncType.from_string : String → Except TError SyncType
  | "user" => .ok .User
  | "space" => .ok .Space
  | "board" => .ok .Board
  | "note" => .ok .Note
  | "file" => .ok .File
  | s => .error (.BadValue ("cannot convert string to SyncType: " ++ s))

/-- A sync record (spec section 3; fields as read and written by
`src/sync/sync_model.rs`): local id, action, item id, owning user id, sync
type, and an optional JSON data snapshot. -/
structure SyncRecord where
  id : Option String
  action : SyncAction
  item_id : String
  user_id : String
  ty : SyncType
  data : Option Value

/-- One row of the local store: spec section 4.E / 6 — each Storable type
declares a table and each row is keyed `(table, id)` with a JSON data
payload. -/
structure StorageRow where
  table : String
  id : String
  data : Value

/-- Modelled from the spec: `Storage::save` (spec section 4.E, "`save(item)`
... atomic per item", rows keyed `(table, id)`); `src/storage.rs` is not
under `src/`.  Saving replaces the existing `(table, id)` row or appends a
new one. -/
def storageSave (db : List StorageRow) (t i : String) (v : Value) : List StorageRow :=
  match db with
  | [] => [⟨t, i, v⟩]
  | r :: rest =>
      if r.table = t ∧ r.id = i then ⟨t, i, v⟩ :: rest
      else r :: storageSave rest t i v

/-- Modelled from the spec: `Storage::delete` (spec section 4.E);
`src/storage.rs` is not under `src/`.  Deleting drops every `(table, id)`
row. -/
def storageDelete (db : List StorageRow) (t i : String) : List StorageRow :=
  match db with
  | [] => []
  | r :: rest =>
      if r.table = t ∧ r.id = i then storageDelete rest t i
      else r :: storageDelete rest t i

/-- The rows of the outbound sync queue: the `"sync"` table (spec section
4.H). -/
def syncRows (db : List StorageRow) : List StorageRow :=
  match db with
  | [] => []
  | r :: rest => if r.table = "sync" then r :: syncRows rest else syncRows rest

/-- The stored JSON form of a sync record (row of the `"sync"` table). -/
def syncRecordValue (id : String) (action : SyncAction) (user_id : String)
    (ty : SyncType) (item_id : String) (data : Value) : Value :=
  Value.obj [("id", Value.str id), ("action", Value.str action.debugStr),
    ("ty", Value.str ty.name), ("item_id", Value.str item_id),
    ("user_id", Value.str user_id), ("data", data)]

/-- The result of parsing a model from incoming JSON (`jedi::from_val`):
its id and its canonical stored form (`data_for_storage`). -/
structure ParsedModel where
  id : Option String
  storageData : Value

/-- The per-model data the default `SyncModel` methods consult: the model
type name, the table, and the model-specific hooks (`skip_incoming_sync`,
`transform`, parsing).  `db_save`/`db_delete` are the defaults of
`src/sync/sync_model.rs` lines 110-117 (plain store save/delete). -/
structure ModelOps where
  modelType : String
  table : String
  skipIncoming : SyncRecord → Except TError Bool
  transform : SyncRecord → Except TError SyncRecord
  parse : Value → Except TError ParsedModel

/-- The data of one model instance as the default `outgoing` sees it: its
id, model type, table and canonical stored form. -/
structure ModelInfo where
  id : Option String
  modelType : String
  table : String
  storageData : Value

/-- `Model::id_or_else`: the model's id or a `MissingField` error. -/
def id_or_else (m : ModelInfo) : Except TError String :=
  match m.id with
  | some i => .ok i
  | none => .error (.MissingField "model.id")

/-- The default `db_save` (`src/sync/sync_model.rs` lines 110-112):
`db.save(self)`, storing the model's canonical value under its table/id. -/
def db_save_default (m : ModelInfo) (db : List StorageRow) : Except TError (List StorageRow) :=
  (id_or_else m).map (fun i => storageSave db m.table i m.storageData)

/-- The default `db_delete` (`src/sync/sync_model.rs` lines 115-117):
`db.delete(self)`. -/
def db_delete_default (m : ModelInfo) (db : List StorageRow) : Except TError (List StorageRow) :=
  (id_or_else m).map (fun i => storageDelete db m.table i)

/-- The default `SyncModel::incoming` (`src/sync/sync_model.rs` lines
30-68) over a pure store.  Deletes drop the row for `item_id`; otherwise
the sync item must carry data, a present boolean `missing` field skips the
item, and the data is transformed, parsed, saved, and written back into the
sync item in canonical stored form.  The two `expect` panics on vanished
data are modelled as `Msg` errors. -/
def incoming (ops : ModelOps) (db : List StorageRow) (sync_item : SyncRecord) :
    Except TError (List StorageRow × SyncRecord) := do
  let skip ← ops.skipIncoming sync_item
  if skip then
    return (db, sync_item)
  match sync_item.action with
  | SyncAction.Delete =>
      return (storageDelete db ops.table sync_item.item_id, sync_item)
  | _ =>
    match sync_item.data with
    | none =>
        Except.error (TError.MissingField
          ("SyncItem.data (" ++ (sync_item.id.getD "<no id>") ++ " / " ++ ops.modelType ++ ")"))
    | some d =>
      match d.getOptBool "missing" with
      | some _ => return (db, sync_item)
      | none => do
        let item2 ← ops.transform sync_item
        match item2.data with
        | none => Except.error (TError.Msg "panic: sync_item.data is None")
        | some d2 => do
          let model ← ops.parse d2
          match model.id with
          | none => Except.error (TError.MissingField "model.id")
          | some mid =>
            return (storageSave db ops.table mid model.storageData,
              ⟨item2.id, item2.action, item2.item_id, item2.user_id, item2.ty,
                some model.storageData⟩)

/-- The default `SyncModel::outgoing` (`src/sync/sync_model.rs` lines
72-100): save or delete the model locally, and unless `skip_remote_sync`,
persist one fresh sync record (id `freshId`, modelling `generate_id`) with
the given action and user id, `ty` from the model type, `item_id` the
model's id, and data `{"id": id}` for deletes or the model's canonical
stored form otherwise. -/
def outgoing (m : ModelInfo) (action : SyncAction) (user_id : String)
    (db : List StorageRow) (skip_remote_sync : Bool) (freshId : String) :
    Except TError (List StorageRow) := do
  let db1 ← match action with
    | SyncAction.Delete => db_delete_default m db
    | _ => db_save_default m db
  if skip_remote_sync then
    return db1
  let ty ← SyncType.from_string m.modelType
  let item_id ← id_or_else m
  let data : Value := match action with
    | SyncAction.Delete => Value.obj [("id", Value.str item_id)]
    | _ => m.storageData
  return storageSave db1 "sync" freshId (syncRecordValue freshId action user_id ty item_id data)

/-- The edit-path overlay of `save_model` (`src/sync/sync_model.rs` lines
196-214) on a model that exists in the store, at the JSON level: take the
incoming model's data, drop its `user_id` (users cannot rewrite ownership),
overlay the persisted record's stored fields onto the model, then overlay
the remaining incoming fields back on top. -/
def saveModelEditMerge (modelVal dbVal : Value) : Value :=
  let modelData := modelVal.removeField "user_id"
  mergeFields (mergeFields modelVal dbVal) modelData

/-- The keys step of the `save_model` edit path (`src/sync/sync_model.rs`
lines 205-210): if the persisted record carries keys they are installed on
the model, otherwise the model's own keys stay. -/
def saveModelEditKeys (modelKeys dbKeys : Option Value) : Option Value :=
  match dbKeys with
  | some keys => some keys
  | none => modelKeys

/-- The environment `dispatch` runs against: the decrypted in-memory user's
data and its stored row, plus the Space/Board/Note, Delete and MoveSpace
arms of the decision table abstracted as handlers (their permission checks
and model plumbing live in the arms of `src/sync/sync_model.rs` lines
318-469 and are not needed by any claim about the User and wildcard
arms). -/
structure DispatchCtx where
  userData : Value
  userDb : Option Value
  spaceArm : SyncAction → Value → Except TError Value
  boardArm : SyncAction → Value → Except TError Value
  noteArm : SyncAction → Value → Except TError Value
  deleteArm : SyncType → Value → Except TError Value
  moveSpaceArm : SyncType → Value → Except TError Value

/-- The effect of `save_model(Edit, ..)` on the user model built by the
User arm (`src/sync/sync_model.rs` lines 311-316 into lines 156-250):
validation passes for the user, and the model's field values go through the
edit overlay against the stored user row when one exists.  The key and
crypto steps of `save_model` do not alter the model's plaintext field
values (spec section 4.D: `serialize` returns the object's own public
fields, body and keys). -/
def save_model_user (ctx : DispatchCtx) (model : Value) : Except TError Value :=
  Except.ok (match ctx.userDb with
    | some dbv => saveModelEditMerge model dbv
    | none => model)

/-- The sync dispatcher `dispatch` (`src/sync/sync_model.rs` lines
280-475): require the record's data, then branch on action and type.  The
User arm is embedded in full (edit-only; the in-memory user is cloned and
only `settings` is moved in from the payload); the Space/Board/Note, Delete
and MoveSpace arms are delegated to the context handlers; any other action
falls to the wildcard arm, `BadValue("unimplemented sync action {:?}")`. -/
def dispatch (ctx : DispatchCtx) (record : SyncRecord) : Except TError Value :=
  match record.data with
  | none => Except.error (TError.MissingField "sync_record.data")
  | some modeldata =>
    match record.action with
    | SyncAction.Add | SyncAction.Edit =>
      match record.ty with
      | SyncType.User =>
        match record.action with
        | SyncAction.Edit =>
            let model := match modeldata.getField "settings" with
              | some s => ctx.userData.setField "settings" s
              | none => ctx.userData.removeField "settings"
            save_model_user ctx model
        | _ =>
            Except.error (TError.BadValue "can only perform `edit` sync on item of type User")
      | SyncType.Space => ctx.spaceArm record.action modeldata
      | SyncType.Board => ctx.boardArm record.action modeldata
      | SyncType.Note => ctx.noteArm record.action modeldata
      | ty => Except.error (TError.BadValue ("cannot direct sync an item of type " ++ ty.name))
    | SyncAction.Delete => ctx.deleteArm record.ty modeldata
    | SyncAction.MoveSpace => ctx.moveSpaceArm record.ty modeldata
    | SyncAction.Other other =>
        Except.error (TError.BadValue ("unimplemented sync action " ++ other))

/-- A space as the file store sees it: its id and its vdb, the per-space
mapping from child note ids to base64-encoded note keys (spec glossary;
`src/models/space.rs` is not under `src/`). -/
structure SpaceM where
  sid : String
  vdb : List (String × String)

/-- Lookup of a note's base64 key in a space's vdb (`vdb.query(note_id)`). -/
def vdbQuery (vdb : List (String × String)) (noteId : String) : Option String :=
  match vdb with
  | [] => none
  | (k, v) :: rest => if k = noteId then some v else vdbQuery rest noteId

/-- The space-scan key resolution of `FileData::load_file` and
`FileData::save` exactly as written (`src/models/file.rs` lines 210-219 and
249-258): `note_key` starts as a fresh random key, and the `for` loop over
the profile's spaces hits an unconditional `break` at the end of its first
iteration — so only the first space is ever compared against the note's
space id, and on no match the random key is kept.  `none` models the
source's `.unwrap()` panics (a `None` space id with a nonempty profile, or
a vdb miss in the matching first space); keys are their base64 strings. -/
def resolveNoteKeyCode (spaces : List SpaceM) (spaceId : Option String)
    (noteId : String) (randomKey : String) : Option String :=
  match spaces with
  | [] => some randomKey
  | space :: _ =>
    match spaceId with
    | none => none
    | some sid =>
      if space.sid = sid then vdbQuery space.vdb noteId
      else some randomKey

/-- Modelled from the spec: the key resolution the spec mandates (spec
sections 4.I and 9): a full linear scan over all spaces in the profile for
the one whose id matches the note's space id, answering that space's vdb
entry for the note, and no key at all when the owning space or the vdb
entry is absent. -/
def resolveNoteKeySpec (spaces : List SpaceM) (spaceId : String) (noteId : String) :
    Option String :=
  match spaces with
  | [] => none
  | space :: rest =>
      if space.sid = spaceId then vdbQuery space.vdb noteId
      else resolveNoteKeySpec rest spaceId noteId

/-- `FileData::file_finder` (`src/models/file.rs` lines 189-195) over the
list of paths its glob produced: the first match, or `NotFound("file not
found")` when there is none.  The error is stated over the spec taxonomy
`TErrorSpec` because the `TError` of `src/error.rs` has no `NotFound`
constructor to build. -/
def file_finder (files : List String) : Except TErrorSpec String :=
  match files with
  | [] => Except.error (TErrorSpec.NotFound "file not found")
  | f :: _ => Except.ok f

/-- The filesystem/crypto reads `FileData::load_file` performs, abstracted:
the bytes of the found `.enc` file and the decryption primitive offloaded
to the crypto pool. -/
structure LoadEnv where
  readFile : Except TError (List Nat)
  decrypt : String → List Nat → Except TError (List Nat)

/-- `FileData::load_file` (`src/models/file.rs` lines 206-239): resolve the
note key by the space scan as written, read the on-disk ciphertext, and
decrypt it with exactly the resolved key.  A `none` from the scan models
the source panicking in the loop. -/
def load_file (env : LoadEnv) (spaces : List SpaceM) (spaceId : Option String)
    (noteId : String) (randomKey : String) : Except TError (List Nat) :=
  match resolveNoteKeyCode spaces spaceId noteId randomKey with
  | none => Except.error (TError.Msg "panic: space scan unwrap failed")
  | some key => do
    let enc ← env.readFile
    env.decrypt key enc

/-- The filesystem/crypto operations `FileData::save` performs, abstracted
with their outcomes: encryption on the crypto pool, `create_dir`,
`File::create`, `write_all`, the `create_sync` closure (db lock +
`outgoing(Add, ..)`), and whether the best-effort `remove_file` of the
compensation path succeeds. -/
structure FsEnv where
  encrypt : String → List Nat → Except TError (List Nat)
  createDir : Except TError Unit
  createFile : Except TError Unit
  writeAll : List Nat → Except TError Unit
  createSync : Except TError Unit
  removeOk : Bool

/-- `FileData::save` (`src/models/file.rs` lines 242-318) as a pure state
function; the second component reports whether the ciphertext file is on
disk afterwards.  The note key comes from the same space scan as
`load_file`; the `data` field is ripped out and must be present; after the
ciphertext is written, a failing `create_sync` triggers the best-effort
`remove_file` compensation before the error is returned. -/
def FileData_save (env : FsEnv) (spaces : List SpaceM) (spaceId : Option String)
    (noteId : String) (data : Option (List Nat)) : Except TError Unit × Bool :=
  match resolveNoteKeyCode spaces spaceId noteId "random-key" with
  | none => (Except.error (TError.Msg "panic: space scan unwrap failed"), false)
  | some noteKey =>
    match data with
    | none => (Except.error (TError.MissingField "FileData.data"), false)
    | some bytes =>
      match env.encrypt noteKey bytes with
      | Except.error e => (Except.error e, false)
      | Except.ok enc =>
        match env.createDir with
        | Except.error e => (Except.error e, false)
        | Except.ok _ =>
          match env.createFile with
          | Except.error e => (Except.error e, false)
          | Except.ok _ =>
            match env.writeAll enc with
            | Except.error e => (Except.error e, true)
            | Except.ok _ =>
              match env.createSync with
              | Except.ok _ => (Except.ok (), true)
              | Except.error e =>
                  (Except.error e, if env.removeOk then false else true)

/-- A dispatch context whose abstracted arms all fail `TryAgain`; only the
User and wildcard arms, which are embedded in full, are exercised. -/
def dispatchCtxTrivial : DispatchCtx :=
  ⟨Value.obj [], none,
    fun _ _ => Except.error TError.TryAgain, fun _ _ => Except.error TError.TryAgain,
    fun _ _ => Except.error TError.TryAgain, fun _ _ => Except.error TError.TryAgain,
    fun _ _ => Except.error TError.TryAgain⟩

/-- A sync record whose action (`ChangePassword` stands for any action other
than Add/Edit/Delete/MoveSpace) falls to the dispatcher's wildcard arm. -/
def recUnknownAction : SyncRecord :=
  ⟨some "sync1", SyncAction.Other "ChangePassword", "item1", "user1", SyncType.Note,
    some (Value.obj [])⟩

/-- A profile of two spaces in which the note's owning space is the second:
the first space has an empty vdb, the second holds the note's key. -/
def spaceFirst : SpaceM := ⟨"space-a", []⟩

def spaceSecond : SpaceM := ⟨"space-b", [("note-1", "KEYB64")]⟩

/-- A load environment: the on-disk ciphertext reads back, and decryption
authenticates only under the note's actual vdb key `KEYB64` (a chacha20-
poly1305 decryption under any other key fails authentication). -/
def loadEnvTwoSpaces : LoadEnv :=
  ⟨Except.ok [9, 9, 9],
    fun k _ => if k = "KEYB64" then Except.ok [1, 2, 3]
      else Except.error (TError.CryptoError "authentication failed")⟩

/-- Default model hooks for a `"note"`-typed model whose parse always
succeeds with id `m1`. -/
def modelOpsNote : ModelOps :=
  ⟨"note", "notes", fun _ => Except.ok false, fun it => Except.ok it,
    fun v => Except.ok ⟨some "m1", v⟩⟩

/-- An incoming edit whose data says `"missing": false`. -/
def syncItemMissingFalse : SyncRecord :=
  ⟨some "s1", SyncAction.Edit, "m1", "u1", SyncType.Note,
    some (Value.obj [("id", Value.str "m1"), ("missing", Value.bool false)])⟩

/-- An incoming edit whose data says `"missing": true`. -/
def syncItemMissingTrue : SyncRecord :=
  ⟨some "s2", SyncAction.Edit, "m1", "u1", SyncType.Note,
    some (Value.obj [("id", Value.str "m1"), ("missing", Value.bool true)])⟩

/-- An incoming edit whose data has no `missing` field at all. -/
def syncItemNoMissing : SyncRecord :=
  ⟨some "s3", SyncAction.Edit, "m1", "u1", SyncType.Note,
    some (Value.obj [("id", Value.str "m1")])⟩

/-- A dispatch context with a logged-in user `alice` (id `u1`) and a stored
user row, for the User-arm scenarios. -/
def dispatchCtxUser : DispatchCtx :=
  ⟨Value.obj [("id", Value.str "u1"), ("user_id", Value.str "u1"),
      ("username", Value.str "alice"), ("settings", Value.obj [])],
    some (Value.obj [("id", Value.str "u1"), ("user_id", Value.str "u1"),
      ("username", Value.str "alice")]),
    fun _ _ => Except.error TError.TryAgain, fun _ _ => Except.error TError.TryAgain,
    fun _ _ => Except.error TError.TryAgain, fun _ _ => Except.error TError.TryAgain,
    fun _ _ => Except.error TError.TryAgain⟩

/-- The spec's S5 payload: new settings plus a `username` the user may not
rewrite. -/
def payloadHax : Value :=
  Value.obj [("settings", Value.obj [("x", Value.num 1)]), ("username", Value.str "hax")]

/-- A concrete note-typed model instance for the outgoing-queue scenario. -/
def modelInfoNote : ModelInfo :=
  ⟨some "item1", "note", "notes", Value.obj [("id", Value.str "item1")]⟩

/-- A save environment in which every filesystem/crypto step succeeds, the
`create_sync` step fails `TryAgain`, and the compensating remove succeeds. -/
def fsEnvSyncFails : FsEnv :=
  ⟨fun _ b => Except.ok b, Except.ok (), Except.ok (), fun _ => Except.ok (),
    Except.error TError.TryAgain, true⟩

theorem assocGet_overlay_some {k : String} {b : List (String × Value)} {w : Value}
    (a : List (String × Value)) (hb : assocGet k b = some w) :
    assocGet k (overlay a b) = some w := by
  induction a with
  | nil => simpa [overlay]
  | cons hd tl ih =>
      obtain ⟨k', v'⟩ := hd
      by_cases h : k' = k
      · subst h
        simp [overlay, assocGet, hb]
      · simp [overlay, assocGet, h, ih]

theorem assocGet_overlay_none {k : String} {b : List (String × Value)}
    (a : List (String × Value)) (hb : assocGet k b = none) :
    assocGet k (overlay a b) = assocGet k a := by
  induction a with
  | nil => simpa [overlay]
  | cons hd tl ih =>
      obtain ⟨k', v'⟩ := hd
      by_cases h : k' = k
      · subst h
        simp [overlay, assocGet, hb]
      · simp [overlay, assocGet, h, ih]

theorem assocGet_assocRemove_self (k : String) (l : List (String × Value)) :
    assocGet k (assocRemove k l) = none := by
  induction l with
  | nil => simp [assocRemove, assocGet]
  | cons hd tl ih =>
      obtain ⟨k', v'⟩ := hd
      by_cases h : k' = k
      · simp [assocRemove, h, ih]
      · simp [assocRemove, assocGet, h, ih]

theorem assocGet_assocRemove_ne {k' k : String} (hne : k' ≠ k)
    (l : List (String × Value)) :
    assocGet k (assocRemove k' l) = assocGet k l := by
  induction l with
  | nil => simp [assocRemove]
  | cons hd tl ih =>
      obtain ⟨k'', v''⟩ := hd
      by_cases h : k'' = k'
      · subst h
        simp [assocRemove, assocGet, hne, ih]
      · by_cases h2 : k'' = k
        · have hke : k ≠ k' := fun hh => hne hh.symm
          simp [assocRemove, assocGet, h, h2, hke]
        · simp [assocRemove, assocGet, h, h2, ih]

theorem assocGet_assocSet_self (k : String) (v : Value) (l : List (String × Value)) :
    assocGet k (assocSet k v l) = some v := by
  induction l with
  | nil => simp [assocSet, assocGet]
  | cons hd tl ih =>
      obtain ⟨k', v'⟩ := hd
      by_cases h : k' = k
      · simp [assocSet, assocGet, h]
      · simp [assocSet, assocGet, h, ih]

theorem assocGet_assocSet_ne {k' k : String} (hne : k' ≠ k) (v : Value)
    (l : List (String × Value)) :
    assocGet k (assocSet k' v l) = assocGet k l := by
  induction l with
  | nil => simp [assocSet, assocGet, hne]
  | cons hd tl ih =>
      obtain ⟨k'', v''⟩ := hd
      by_cases h : k'' = k'
      · subst h
        simp [assocSet, assocGet, hne, ih]
      · by_cases h2 : k'' = k
        · have hke : k ≠ k' := fun hh => hne hh.symm
          simp [assocSet, assocGet, h, h2, hke]
        · simp [assocSet, assocGet, h, h2, ih]

/-- Any field other than `user_id` that the incoming model carries survives
the `save_model` edit overlay with the value the incoming model gave it,
whatever the persisted record holds. -/
theorem getField_saveModelEditMerge {k : String} {lm : List (String × Value)}
    {w : Value} (db : Value) (hk : assocGet k lm = some w) (hne : k ≠ "user_id") :
    Value.getField (saveModelEditMerge (Value.obj lm) db) k = some w := by
  have hrem : assocGet k (assocRemove "user_id" lm) = some w := by
    rw [assocGet_assocRemove_ne (fun h => hne h.symm)]
    exact hk
  cases db with
  | obj ldb =>
      simp only [saveModelEditMerge, Value.removeField, mergeFields, Value.getField]
      exact assocGet_overlay_some _ hrem
  | null => simpa [saveModelEditMerge, Value.removeField, mergeFields, Value.getField]
  | bool b => simpa [saveModelEditMerge, Value.removeField, mergeFields, Value.getField]
  | num n => simpa [saveModelEditMerge, Value.removeField, mergeFields, Value.getField]
  | str s => simpa [saveModelEditMerge, Value.removeField, mergeFields, Value.getField]
  | arr l => simpa [saveModelEditMerge, Value.removeField, mergeFields, Value.getField]

theorem syncRows_storageSave_ne {t : String} (ht : t ≠ "sync")
    (db : List StorageRow) (i : String) (v : Value) :
    syncRows (storageSave db t i v) = syncRows db := by
  induction db with
  | nil => simp [storageSave, syncRows, ht]
  | cons r rest ih =>
      by_cases h : r.table = t ∧ r.id = i
      · have hr : r.table ≠ "sync" := by
          rw [h.1]; exact ht
        simp [storageSave, h, syncRows, ht, hr]
      · have hts : "sync" ≠ t := fun hh => ht hh.symm
        by_cases h2 : r.table = "sync"
        · simp [storageSave, h, syncRows, h2, hts, ih]
        · simp [storageSave, h, syncRows, h2, hts, ih]

theorem syncRows_storageDelete_ne {t : String} (ht : t ≠ "sync")
    (db : List StorageRow) (i : String) :
    syncRows (storageDelete db t i) = syncRows db := by
  induction db with
  | nil => simp [storageDelete, syncRows]
  | cons r rest ih =>
      by_cases h : r.table = t ∧ r.id = i
      · have hr : r.table ≠ "sync" := by
          rw [h.1]; exact ht
        simp [storageDelete, h, syncRows, hr, ht, ih]
      · have hts : "sync" ≠ t := fun hh => ht hh.symm
        by_cases h2 : r.table = "sync"
        · simp [storageDelete, h, syncRows, h2, hts, ih]
        · simp [storageDelete, h, syncRows, h2, hts, ih]

theorem storageSave_fresh {fid : String} {db : List StorageRow}
    (hfresh : ∀ r ∈ db, ¬(r.table = "sync" ∧ r.id = fid)) (v : Value) :
    storageSave db "sync" fid v = db ++ [⟨"sync", fid, v⟩] := by
  induction db with
  | nil => simp [storageSave]
  | cons r rest ih =>
      have hr := hfresh r (List.mem_cons_self r rest)
      have hrest : ∀ r' ∈ rest, ¬(r'.table = "sync" ∧ r'.id = fid) :=
        fun r' hr' => hfresh r' (List.mem_cons_of_mem r hr')
      simp [storageSave, hr, ih hrest]

theorem mem_storageSave {r : StorageRow} {db : List StorageRow} {t i : String}
    {v : Value} (hmem : r ∈ storageSave db t i v) : r ∈ db ∨ r = ⟨t, i, v⟩ := by
  induction db with
  | nil =>
      simp [storageSave] at hmem
      exact Or.inr hmem
  | cons hd rest ih =>
      by_cases h : hd.table = t ∧ hd.id = i
      · simp only [storageSave, if_pos h] at hmem
        rcases List.mem_cons.mp hmem with h1 | h2
        · exact Or.inr h1
        · exact Or.inl (List.mem_cons_of_mem hd h2)
      · simp only [storageSave, if_neg h] at hmem
        rcases List.mem_cons.mp hmem with h1 | h2
        · exact Or.inl (h1 ▸ List.mem_cons_self hd rest)
        · rcases ih h2 with h3 | h4
          · exact Or.inl (List.mem_cons_of_mem hd h3)
          · exact Or.inr h4

theorem mem_storageDelete {r : StorageRow} {db : List StorageRow} {t i : String}
    (hmem : r ∈ storageDelete db t i) : r ∈ db := by
  induction db with
  | nil => simp [storageDelete] at hmem
  | cons hd rest ih =>
      by_cases h : hd.table = t ∧ hd.id = i
      · simp only [storageDelete, if_pos h] at hmem
        exact List.mem_cons_of_mem hd (ih hmem)
      · simp only [storageDelete, if_neg h] at hmem
        rcases List.mem_cons.mp hmem with h1 | h2
        · exact h1 ▸ List.mem_cons_self hd rest
        · exact List.mem_cons_of_mem hd (ih h2)

theorem syncRows_append_sync (db : List StorageRow) (fid : String) (v : Value) :
    syncRows (db ++ [⟨"sync", fid, v⟩]) = syncRows db ++ [⟨"sync", fid, v⟩] := by
  induction db with
  | nil => simp [syncRows]
  | cons r rest ih =>
      by_cases h : r.table = "sync"
      · simp [syncRows, h, ih]
      · simp [syncRows, h, ih]

theorem fresh_after_save (db : List StorageRow) (fid t i : String) (v : Value)
    (htab : t ≠ "sync") (hfresh : ∀ r ∈ db, ¬(r.table = "sync" ∧ r.id = fid)) :
    ∀ r ∈ storageSave db t i v, ¬(r.table = "sync" ∧ r.id = fid) := by
  intro r hr hc
  rcases mem_storageSave hr with h | h
  · exact hfresh r h hc
  · rw [h] at hc
    exact htab hc.1

theorem fresh_after_delete (db : List StorageRow) (fid t i : String)
    (hfresh : ∀ r ∈ db, ¬(r.table = "sync" ∧ r.id = fid)) :
    ∀ r ∈ storageDelete db t i, ¬(r.table = "sync" ∧ r.id = fid) :=
  fun r hr => hfresh r (mem_storageDelete hr)

/-- Claim C2: the unified error type of `src/error.rs` has no variant named
`NotFound` — every `TError` value's kind is something else — while
`FileData::file_finder` as written (file.rs line 192) reports a missing
file with the `NotFound` kind, which only exists in the spec's taxonomy:
the enum under `src/` contradicts its own callers and test. -/
theorem terror_has_no_notfound :
    (∀ e : TError, (e.kindName == "NotFound") = false)
    ∧ file_finder [] = Except.error (TErrorSpec.NotFound "file not found") := by
  constructor
  · intro e
    cases e <;> simp [TError.kindName]
  · rfl

/-- Claim C5 (counterexample): when the crypto pool's oneshot is canceled
under pool name `crypto`, the future resolves with
`Msg("thredder: crypto: pool oneshot future canceled")`, whose message is
not the `"oneshot canceled"` the claim states. -/
theorem thredder_canceled_counterexample :
    thredderResolve (List Nat) "crypto" (Except.error Canceled.canceled)
      = Except.error (TError.Msg "thredder: crypto: pool oneshot future canceled")
    ∧ (("thredder: crypto: pool oneshot future canceled" : String) == "oneshot canceled") = false :=
  ⟨rfl, by decide⟩

/-- Claim C5 (amended): if the pool is dropped mid-operation the returned
future resolves, for any payload type and pool name, with the `Msg` kind
(the spec's `Generic`) carrying
`"thredder: {name}: pool oneshot future canceled"`. -/
theorem thredder_canceled_message (α : Type) [OpConverter α] (name : String) :
    thredderResolve α name (Except.error Canceled.canceled)
      = Except.error (TError.Msg ("thredder: " ++ name ++ ": pool oneshot future canceled")) :=
  rfl

/-- Claim C10: each of the five transferable payload types round-trips
through `OpData` (`to_value (to_opdata x) = Ok(x)`), and decoding an
`OpData` holding any other variant than the requested type fails with the
converter's `BadValue` error. -/
theorem opconverter_roundtrip :
    (∀ x : List Nat,
      (OpConverter.to_value (OpConverter.to_opdata x) : Except TError (List Nat)) = Except.ok x)
    ∧ (∀ x : String,
      (OpConverter.to_value (OpConverter.to_opdata x) : Except TError String) = Except.ok x)
    ∧ (∀ x : Value,
      (OpConverter.to_value (OpConverter.to_opdata x) : Except TError Value) = Except.ok x)
    ∧ (∀ x : Unit,
      (OpConverter.to_value (OpConverter.to_opdata x) : Except TError Unit) = Except.ok x)
    ∧ (∀ x : List Nat × String,
      (OpConverter.to_value (OpConverter.to_opdata x) : Except TError (List Nat × String)) = Except.ok x)
    ∧ (∀ d : OpData, d.isBin = false →
      (OpConverter.to_value d : Except TError (List Nat))
        = Except.error (TError.BadValue "OpConverter: problem converting Vec<u8>"))
    ∧ (∀ d : OpData, d.isStr = false →
      (OpConverter.to_value d : Except TError String)
        = Except.error (TError.BadValue "OpConverter: problem converting String"))
    ∧ (∀ d : OpData, d.isJSON = false →
      (OpConverter.to_value d : Except TError Value)
        = Except.error (TError.BadValue "OpConverter: problem converting Value"))
    ∧ (∀ d : OpData, d.isNull = false →
      (OpConverter.to_value d : Except TError Unit)
        = Except.error (TError.BadValue "OpConverter: problem converting ()"))
    ∧ (∀ d : OpData, d.isVecStringPair = false →
      (OpConverter.to_value d : Except TError (List Nat × String))
        = Except.error (TError.BadValue "OpConverter: problem converting (Vec<u8>, String)")) := by
  refine ⟨fun x => rfl, fun x => rfl, fun x => rfl, fun x => rfl, fun x => rfl,
    ?_, ?_, ?_, ?_, ?_⟩ <;>
    (intro d h; cases d <;> first | rfl | (simp [OpData.isBin, OpData.isStr,
      OpData.isJSON, OpData.isNull, OpData.isVecStringPair] at h))

/-- Claim C10 (witness): a byte-list round-trips, and decoding a `Str`
payload as bytes fails with the converter's `BadValue`. -/
theorem opconverter_roundtrip_witness :
    (OpConverter.to_value (OpConverter.to_opdata ([3, 4] : List Nat)) : Except TError (List Nat))
      = Except.ok [3, 4]
    ∧ (OpConverter.to_value (OpData.Str "hi") : Except TError (List Nat))
      = Except.error (TError.BadValue "OpConverter: problem converting Vec<u8>") :=
  ⟨opconverter_roundtrip.1 [3, 4],
    opconverter_roundtrip.2.2.2.2.2.1 (OpData.Str "hi") rfl⟩

/-- Claim C4 (counterexample): dispatching a record whose action is outside
Add/Edit/Delete/MoveSpace fails with the `BadValue` kind, message
`"unimplemented sync action ..."` — not with `NotImplemented` as the claim
states. -/
theorem dispatch_unknown_action_counterexample :
    dispatch dispatchCtxTrivial recUnknownAction
      = Except.error (TError.BadValue "unimplemented sync action ChangePassword")
    ∧ (match dispatch dispatchCtxTrivial recUnknownAction with
       | Except.error e => e.kindName
       | Except.ok _ => "ok") = "BadValue"
    ∧ (("BadValue" : String) == "NotImplemented") = false :=
  ⟨rfl, rfl, by decide⟩

/-- Claim C4 (amended): for every sync record whose action is not one of
Add, Edit, Delete or MoveSpace (and whose data is present), dispatch fails
with `BadValue("unimplemented sync action {action}")`; the error aborts the
dispatch, it is not swallowed. -/
theorem dispatch_unknown_action (ctx : DispatchCtx) (oi : Option String)
    (s ii uu : String) (ty : SyncType) (payload : Value) :
    dispatch ctx ⟨oi, SyncAction.Other s, ii, uu, ty, some payload⟩
      = Except.error (TError.BadValue ("unimplemented sync action " ++ s)) :=
  rfl

/-- Claim C1: with the note's owning space second in the profile, the
space scan of `FileData::load_file` as written keeps the fresh random key
(the unconditional `break` stops the loop after the first space), where the
spec-mandated full linear scan resolves the owning space's vdb key; the
file is then decrypted under the wrong key.  When the owning space happens
to be first, the vdb key is used and the plaintext comes back. -/
theorem load_file_checks_first_space_only :
    resolveNoteKeyCode [spaceFirst, spaceSecond] (some "space-b") "note-1" "RANDOM"
      = some "RANDOM"
    ∧ resolveNoteKeySpec [spaceFirst, spaceSecond] "space-b" "note-1" = some "KEYB64"
    ∧ (("RANDOM" : String) == "KEYB64") = false
    ∧ load_file loadEnvTwoSpaces [spaceFirst, spaceSecond] (some "space-b") "note-1" "RANDOM"
      = Except.error (TError.CryptoError "authentication failed")
    ∧ load_file loadEnvTwoSpaces [spaceSecond, spaceFirst] (some "space-b") "note-1" "RANDOM"
      = Except.ok [1, 2, 3] := by
  refine ⟨rfl, rfl, by decide, ?_, ?_⟩ <;> rfl

/-- Claim C3 (counterexample): an incoming edit whose present data carries
`"missing": false` is skipped — `incoming` returns Ok with the store and
the sync item unchanged — although the claim says only `missing == true`
skips and a `missing == false` item is parsed and saved.  The same item
with no `missing` field is parsed and saved. -/
theorem incoming_missing_false_counterexample :
    incoming modelOpsNote [] syncItemMissingFalse = Except.ok ([], syncItemMissingFalse)
    ∧ incoming modelOpsNote [] syncItemNoMissing
      = Except.ok ([⟨"notes", "m1", Value.obj [("id", Value.str "m1")]⟩],
        ⟨some "s3", SyncAction.Edit, "m1", "u1", SyncType.Note,
          some (Value.obj [("id", Value.str "m1")])⟩) :=
  ⟨rfl, rfl⟩

/-- Claim C3 (amended): for a non-Delete incoming sync item with data
present (and no model-specific skip), `incoming` skips — returns Ok with
the store unchanged — exactly when the data's `missing` field is present
with a boolean value, whatever that value is; when no boolean `missing`
field exists, the data is parsed and the model saved to its table, the
canonical stored form being written back into the sync item. -/
theorem incoming_skips_on_missing_field (ops : ModelOps) (db : List StorageRow)
    (item item' : SyncRecord) (d d' : Value) (b : Bool) (pm : ParsedModel) (i : String)
    (h1 : item.action ≠ SyncAction.Delete) (h2 : item.data = some d)
    (h3 : ops.skipIncoming item = Except.ok false)
    (h4 : d.getOptBool "missing" = some b)
    (g1 : item'.action ≠ SyncAction.Delete) (g2 : item'.data = some d')
    (g3 : ops.skipIncoming item' = Except.ok false)
    (g4 : d'.getOptBool "missing" = none)
    (g5 : ops.transform item' = Except.ok item')
    (g6 : ops.parse d' = Except.ok pm) (g7 : pm.id = some i) :
    incoming ops db item = Except.ok (db, item)
    ∧ incoming ops db item'
      = Except.ok (storageSave db ops.table i pm.storageData,
        ⟨item'.id, item'.action, item'.item_id, item'.user_id, item'.ty,
          some pm.storageData⟩) := by
  constructor
  · obtain ⟨oid, act, iid, uid, ty, dat⟩ := item
    simp only [SyncRecord.data] at h2
    subst h2
    cases act with
    | Delete => exact absurd rfl h1
    | Add => simp [incoming, h3, h4, bind, Except.bind, pure, Except.pure]
    | Edit => simp [incoming, h3, h4, bind, Except.bind, pure, Except.pure]
    | MoveSpace => simp [incoming, h3, h4, bind, Except.bind, pure, Except.pure]
    | Other s => simp [incoming, h3, h4, bind, Except.bind, pure, Except.pure]
  · obtain ⟨oid, act, iid, uid, ty, dat⟩ := item'
    simp only [SyncRecord.data] at g2
    subst g2
    cases act with
    | Delete => exact absurd rfl g1
    | Add => simp [incoming, g3, g4, g5, g6, g7, bind, Except.bind, pure, Except.pure]
    | Edit => simp [incoming, g3, g4, g5, g6, g7, bind, Except.bind, pure, Except.pure]
    | MoveSpace => simp [incoming, g3, g4, g5, g6, g7, bind, Except.bind, pure, Except.pure]
    | Other s => simp [incoming, g3, g4, g5, g6, g7, bind, Except.bind, pure, Except.pure]

/-- Claim C3 (witness): a `missing: true` item is skipped and an item with
no `missing` field is parsed and saved, through the amended theorem. -/
theorem incoming_skips_on_missing_field_witness :
    incoming modelOpsNote [] syncItemMissingTrue = Except.ok ([], syncItemMissingTrue)
    ∧ incoming modelOpsNote [] syncItemNoMissing
      = Except.ok (storageSave [] modelOpsNote.table "m1"
          (Value.obj [("id", Value.str "m1")]),
        ⟨syncItemNoMissing.id, syncItemNoMissing.action, syncItemNoMissing.item_id,
          syncItemNoMissing.user_id, syncItemNoMissing.ty,
          some (Value.obj [("id", Value.str "m1")])⟩) :=
  incoming_skips_on_missing_field modelOpsNote [] syncItemMissingTrue syncItemNoMissing
    (Value.obj [("id", Value.str "m1"), ("missing", Value.bool true)])
    (Value.obj [("id", Value.str "m1")]) true
    ⟨some "m1", Value.obj [("id", Value.str "m1")]⟩ "m1"
    (by decide) rfl rfl rfl (by decide) rfl rfl rfl rfl rfl rfl

/-- Claim C8: in the `save_model` edit path the persisted record's
`user_id` survives the overlay whatever the incoming model supplied — the
incoming `user_id` is removed from the model data before the re-overlay —
and when the persisted record carries keys, those keys are installed on
the model. -/
theorem save_model_edit_preserves_ownership (lm ldb : List (String × Value))
    (u : Value) (mk : Option Value) (ks : Value)
    (hdb : assocGet "user_id" ldb = some u) :
    Value.getField (saveModelEditMerge (Value.obj lm) (Value.obj ldb)) "user_id" = some u
    ∧ saveModelEditKeys mk (some ks) = some ks := by
  constructor
  · have h1 : assocGet "user_id" (assocRemove "user_id" lm) = none :=
      assocGet_assocRemove_self "user_id" lm
    simp only [saveModelEditMerge, Value.removeField, mergeFields, Value.getField]
    rw [assocGet_overlay_none _ h1]
    exact assocGet_overlay_some _ hdb
  · rfl

/-- Claim C8 (witness): an edit that tries to change `user_id` to `evil`
keeps the persisted `u1`, and the persisted keys are installed. -/
theorem save_model_edit_preserves_ownership_witness :
    Value.getField (saveModelEditMerge
        (Value.obj [("id", Value.str "m1"), ("user_id", Value.str "evil")])
        (Value.obj [("id", Value.str "m1"), ("user_id", Value.str "u1")]))
      "user_id" = some (Value.str "u1")
    ∧ saveModelEditKeys none (some (Value.arr [Value.str "k1"]))
      = some (Value.arr [Value.str "k1"]) :=
  save_model_edit_preserves_ownership
    [("id", Value.str "m1"), ("user_id", Value.str "evil")]
    [("id", Value.str "m1"), ("user_id", Value.str "u1")]
    (Value.str "u1") none (Value.arr [Value.str "k1"]) rfl

/-- Claim C7: dispatching Add on the User type fails `BadValue` for every
payload; dispatching Edit clones the in-memory user and overlays only the
payload's `settings`, so the saved user's `username` is the in-memory one
(whatever the payload's `username` says) while its `settings` is the
payload's. -/
theorem dispatch_user_edit_settings_only (ctx : DispatchCtx) (payload : Value)
    (lu : List (String × Value)) (un s : Value) (oi : Option String) (ii uu : String)
    (hu : ctx.userData = Value.obj lu)
    (hn : assocGet "username" lu = some un)
    (hs : payload.getField "settings" = some s) :
    dispatch ctx ⟨oi, SyncAction.Add, ii, uu, SyncType.User, some payload⟩
      = Except.error (TError.BadValue "can only perform `edit` sync on item of type User")
    ∧ Except.map (fun v => (Value.getField v "username", Value.getField v "settings"))
        (dispatch ctx ⟨oi, SyncAction.Edit, ii, uu, SyncType.User, some payload⟩)
      = Except.ok (some un, some s) := by
  refine ⟨rfl, ?_⟩
  have hun : assocGet "username" (assocSet "settings" s lu) = some un := by
    rw [assocGet_assocSet_ne (by decide) s lu]
    exact hn
  have hse : assocGet "settings" (assocSet "settings" s lu) = some s :=
    assocGet_assocSet_self "settings" s lu
  simp only [dispatch, hs, hu, save_model_user, Value.setField]
  cases hdb : ctx.userDb with
  | none =>
      simp [Except.map, Value.getField, hun, hse]
  | some dbv =>
      have r1 := getField_saveModelEditMerge dbv hun (by decide)
      have r2 := getField_saveModelEditMerge dbv hse (by decide)
      simp [Except.map, r1, r2]

/-- Claim C7 (witness): the spec's S5 scenario — an edit carrying
`settings {x: 1}` and `username "hax"` succeeds, the saved user keeps
username `alice` and takes the new settings, and the same payload under
Add fails `BadValue`. -/
theorem dispatch_user_edit_settings_only_witness :
    dispatch dispatchCtxUser ⟨some "sA", SyncAction.Add, "u1", "u1", SyncType.User, some payloadHax⟩
      = Except.error (TError.BadValue "can only perform `edit` sync on item of type User")
    ∧ Except.map (fun v => (Value.getField v "username", Value.getField v "settings"))
        (dispatch dispatchCtxUser ⟨some "sA", SyncAction.Edit, "u1", "u1", SyncType.User, some payloadHax⟩)
      = Except.ok (some (Value.str "alice"), some (Value.obj [("x", Value.num 1)])) :=
  dispatch_user_edit_settings_only dispatchCtxUser payloadHax
    [("id", Value.str "u1"), ("user_id", Value.str "u1"),
      ("username", Value.str "alice"), ("settings", Value.obj [])]
    (Value.str "alice") (Value.obj [("x", Value.num 1)]) (some "sA") "u1" "u1"
    rfl rfl rfl

/-- Claim C9: whenever `FileData::save` has written the ciphertext to disk
and the subsequent `create_sync` step fails, the error is propagated to the
caller and the on-disk ciphertext is removed when the best-effort delete
succeeds (and only a failing delete can leave it behind). -/
theorem filedata_save_compensation (env : FsEnv) (spaces : List SpaceM)
    (spaceId : Option String) (noteId : String) (bytes enc : List Nat)
    (k : String) (e : TError)
    (hkey : resolveNoteKeyCode spaces spaceId noteId "random-key" = some k)
    (henc : env.encrypt k bytes = Except.ok enc)
    (hdir : env.createDir = Except.ok ())
    (hcreate : env.createFile = Except.ok ())
    (hwrite : env.writeAll enc = Except.ok ())
    (hsync : env.createSync = Except.error e) :
    FileData_save env spaces spaceId noteId (some bytes)
      = (Except.error e, if env.removeOk then false else true) := by
  simp only [FileData_save, hkey, henc, hdir, hcreate, hwrite, hsync]

/-- Claim C9 (witness): with every filesystem step succeeding, a failing
`create_sync` propagates its error and the written file is removed. -/
theorem filedata_save_compensation_witness :
    FileData_save fsEnvSyncFails [] none "note-1" (some [1, 2])
      = (Except.error TError.TryAgain, false) :=
  filedata_save_compensation fsEnvSyncFails [] none "note-1" [1, 2] [1, 2]
    "random-key" TError.TryAgain rfl rfl rfl rfl rfl rfl

/-- Claim C6: the default `SyncModel::outgoing` with `skip_remote_sync`
false appends exactly one new record to the `"sync"` table — carrying the
fresh id, the given action and user id, the sync type derived from the
model type, `item_id` the model's id, and data `{"id": id}` for Delete or
the model's canonical stored form otherwise — while with `skip_remote_sync`
true the `"sync"` table is left unchanged. -/
theorem outgoing_appends_one_sync_record (m : ModelInfo) (action : SyncAction)
    (uid fid i : String) (ty : SyncType) (db : List StorageRow)
    (hid : m.id = some i)
    (hty : SyncType.from_string m.modelType = Except.ok ty)
    (htab : m.table ≠ "sync")
    (hfresh : ∀ r ∈ db, ¬(r.table = "sync" ∧ r.id = fid)) :
    Except.map syncRows (outgoing m action uid db false fid)
      = Except.ok (syncRows db ++ [⟨"sync", fid,
          syncRecordValue fid action uid ty i
            (match action with
             | SyncAction.Delete => Value.obj [("id", Value.str i)]
             | _ => m.storageData)⟩])
    ∧ Except.map syncRows (outgoing m action uid db true fid) = Except.ok (syncRows db) := by
  cases action with
  | Delete =>
      have hf1 : ∀ r ∈ storageDelete db m.table i, ¬(r.table = "sync" ∧ r.id = fid) :=
        fresh_after_delete db fid m.table i hfresh
      constructor
      · simp [outgoing, db_delete_default, id_or_else, hid, hty, Except.map,
          Except.bind, bind, pure, Except.pure, storageSave_fresh hf1,
          syncRows_append_sync, syncRows_storageDelete_ne htab]
      · simp [outgoing, db_delete_default, id_or_else, hid, Except.map,
          Except.bind, bind, pure, Except.pure, syncRows_storageDelete_ne htab]
  | Add =>
      have hf1 : ∀ r ∈ storageSave db m.table i m.storageData, ¬(r.table = "sync" ∧ r.id = fid) :=
        fresh_after_save db fid m.table i m.storageData htab hfresh
      constructor
      · simp [outgoing, db_save_default, id_or_else, hid, hty, Except.map,
          Except.bind, bind, pure, Except.pure, storageSave_fresh hf1,
          syncRows_append_sync, syncRows_storageSave_ne htab]
      · simp [outgoing, db_save_default, id_or_else, hid, Except.map,
          Except.bind, bind, pure, Except.pure, syncRows_storageSave_ne htab]
  | Edit =>
      have hf1 : ∀ r ∈ storageSave db m.table i m.storageData, ¬(r.table = "sync" ∧ r.id = fid) :=
        fresh_after_save db fid m.table i m.storageData htab hfresh
      constructor
      · simp [outgoing, db_save_default, id_or_else, hid, hty, Except.map,
          Except.bind, bind, pure, Except.pure, storageSave_fresh hf1,
          syncRows_append_sync, syncRows_storageSave_ne htab]
      · simp [outgoing, db_save_default, id_or_else, hid, Except.map,
          Except.bind, bind, pure, Except.pure, syncRows_storageSave_ne htab]
  | MoveSpace =>
      have hf1 : ∀ r ∈ storageSave db m.table i m.storageData, ¬(r.table = "sync" ∧ r.id = fid) :=
        fresh_after_save db fid m.table i m.storageData htab hfresh
      constructor
      · simp [outgoing, db_save_default, id_or_else, hid, hty, Except.map,
          Except.bind, bind, pure, Except.pure, storageSave_fresh hf1,
          syncRows_append_sync, syncRows_storageSave_ne htab]
      · simp [outgoing, db_save_default, id_or_else, hid, Except.map,
          Except.bind, bind, pure, Except.pure, syncRows_storageSave_ne htab]
  | Other s =>
      have hf1 : ∀ r ∈ storageSave db m.table i m.storageData, ¬(r.table = "sync" ∧ r.id = fid) :=
        fresh_after_save db fid m.table i m.storageData htab hfresh
      constructor
      · simp [outgoing, db_save_default, id_or_else, hid, hty, Except.map,
          Except.bind, bind, pure, Except.pure, storageSave_fresh hf1,
          syncRows_append_sync, syncRows_storageSave_ne htab]
      · simp [outgoing, db_save_default, id_or_else, hid, Except.map,
          Except.bind, bind, pure, Except.pure, syncRows_storageSave_ne htab]

/-- Claim C6 (witness): an Add of a note model into an empty store leaves
exactly one record in the `"sync"` table, with the expected fields; with
`skip_remote_sync` true the `"sync"` table stays empty. -/
theorem outgoing_appends_one_sync_record_witness :
    Except.map syncRows (outgoing modelInfoNote SyncAction.Add "u1" [] false "sync-id-1")
      = Except.ok (syncRows [] ++ [⟨"sync", "sync-id-1",
          syncRecordValue "sync-id-1" SyncAction.Add "u1" SyncType.Note "item1"
            modelInfoNote.storageData⟩])
    ∧ Except.map syncRows (outgoing modelInfoNote SyncAction.Add "u1" [] true "sync-id-1")
      = Except.ok (syncRows []) :=
  outgoing_appends_one_sync_record modelInfoNote SyncAction.Add "u1" "sync-id-1" "item1"
    SyncType.Note [] rfl rfl (by decide)
    (fun r hr => absurd hr (List.not_mem_nil r))
